import Mathlib

/--
Shallow embedding of the ad-hoc mesh routing layer of src/part2/winc_p2p.c
(header src/part2/winc_p2p.h).  Machine integers (uint8_t, uint16_t,
uint32_t) are modelled as Nat, with an explicit mod where C overflow can
occur: entry hop counts and the forwarded packet hop count are reduced
mod 256 (uint8_t), and the timestamp subtraction in the expiry sweep is
the uint32_t wrapping difference.  The fixed array
MESH_NODE nodes[MESH_MAX_NODES] together with node_count is modelled as
the list of the node_count slots in use; slots at index >= node_count are
all-zero (mesh_init memsets the whole table and node_count never
decreases), so the C insertion into slot node_count is the append of a
node whose not-explicitly-assigned fields are zero.  The mac_addr field
of MESH_NODE is carried by none of the routing functions and is omitted.
-/
def MESH_MAX_NODES : Nat := 8

/-- MESH_BEACON_INTERVAL from winc_p2p.h (ms). -/
def MESH_BEACON_INTERVAL : Nat := 5000

/-- MESH_ROUTE_TIMEOUT from winc_p2p.h (ms). -/
def MESH_ROUTE_TIMEOUT : Nat := 30000

/-- MESH_MAX_HOPS from winc_p2p.h. -/
def MESH_MAX_HOPS : Nat := 4

/-- One routing-table slot: struct MESH_NODE of winc_p2p.h (mac_addr,
never read or written by the routing code, is omitted). -/
structure MESH_NODE where
  node_id : Nat
  hop_count : Nat
  next_hop : Nat
  last_update : Nat
  is_active : Bool
  deriving Repr, DecidableEq

/-- struct MESH_ROUTING_TABLE of winc_p2p.h: the in-use prefix of the
nodes array as a list (its length is node_count) plus local_node_id. -/
structure MESH_ROUTING_TABLE where
  nodes : List MESH_NODE
  local_node_id : Nat
  deriving Repr, DecidableEq

/-- The node_count field of the C struct: the number of slots in use. -/
def MESH_ROUTING_TABLE.node_count (t : MESH_ROUTING_TABLE) : Nat :=
  t.nodes.length

/-- struct MESH_PKT_HDR of winc_p2p.h. -/
structure MESH_PKT_HDR where
  msg_type : Nat
  src_node : Nat
  dst_node : Nat
  hop_count : Nat
  seq_num : Nat
  payload_len : Nat
  deriving Repr, DecidableEq

/-- struct MESH_BEACON of winc_p2p.h (node_name, a display string unused
by the routing logic, is omitted). -/
structure MESH_BEACON where
  hdr : MESH_PKT_HDR
  node_id : Nat
  neighbors : List Nat
  neighbor_count : Nat
  deriving Repr, DecidableEq

/-- mesh_init (winc_p2p.c lines 170-186): memset the table to zero, set
local_node_id, node_count = 0.  The zeroed table with node_count 0 is the
empty in-use prefix. -/
def mesh_init (node_id : Nat) : MESH_ROUTING_TABLE :=
  { nodes := [], local_node_id := node_id }

/-- The refresh that mesh_update_routing_table (winc_p2p.c lines 370-386)
applies to the found or freshly inserted slot: hop_count =
beacon->hdr.hop_count + 1 (uint8_t arithmetic), last_update = now,
is_active = true, and next_hop = beacon->node_id only when the newly
computed hop_count equals 1. -/
def refreshNode (b : MESH_BEACON) (now : Nat) (n : MESH_NODE) : MESH_NODE :=
  let hop := (b.hdr.hop_count + 1) % 256
  { n with
    hop_count := hop
    last_update := now
    is_active := true
    next_hop := if hop = 1 then b.node_id else n.next_hop }

/-- The slot written by the insertion branch of mesh_update_routing_table
(winc_p2p.c lines 364-368): the zero-filled slot at index node_count gets
node_id = beacon->node_id and is then refreshed like a found slot. -/
def insertNode (b : MESH_BEACON) (now : Nat) : MESH_NODE :=
  refreshNode b now
    { node_id := b.node_id, hop_count := 0, next_hop := 0,
      last_update := 0, is_active := false }

/-- The search loop of mesh_update_routing_table (winc_p2p.c lines
354-361): find the first slot whose node_id matches and apply f to it;
none when no slot matches. -/
def updateFirst (nid : Nat) (f : MESH_NODE → MESH_NODE) :
    List MESH_NODE → Option (List MESH_NODE)
  | [] => none
  | n :: ns =>
    if n.node_id = nid then some (f n :: ns)
    else (updateFirst nid f ns).map (fun ms => n :: ms)

/-- The search loop of mesh_find_route / the entry-existence test, as a
first-match lookup over the in-use slots. -/
def findNode : List MESH_NODE → Nat → Option MESH_NODE
  | [], _ => none
  | n :: ns, nid => if n.node_id = nid then some n else findNode ns nid

/-- First slot stored for nid, if any (the entry the C search loops find). -/
def lookupNode (t : MESH_ROUTING_TABLE) (nid : Nat) : Option MESH_NODE :=
  findNode t.nodes nid

/-- mesh_update_routing_table (winc_p2p.c lines 347-387): refresh the
first slot matching beacon->node_id; if none matches and
node_count < MESH_MAX_NODES, append a fresh slot for it; otherwise the
beacon is silently dropped and the table is unchanged.  The
current_time = time_us_32() / 1000 read is the explicit parameter now. -/
def mesh_update_routing_table (t : MESH_ROUTING_TABLE) (b : MESH_BEACON)
    (now : Nat) : MESH_ROUTING_TABLE :=
  match updateFirst b.node_id (refreshNode b now) t.nodes with
  | some ns => { t with nodes := ns }
  | none =>
    if t.nodes.length < MESH_MAX_NODES then
      { t with nodes := t.nodes ++ [insertNode b now] }
    else t

/-- The loop of mesh_find_route (winc_p2p.c lines 390-412): scan the
in-use slots keeping the first strictly better (smaller hop_count) active
match; min_hops starts at 255 and best at none (C: best_node = NULL,
return -1). -/
def findRouteLoop (dst : Nat) :
    List MESH_NODE → Nat → Option Nat → Option Nat
  | [], _, best => best
  | n :: ns, min_hops, best =>
    if n.node_id = dst ∧ n.is_active = true ∧ n.hop_count < min_hops then
      findRouteLoop dst ns n.hop_count (some n.next_hop)
    else
      findRouteLoop dst ns min_hops best

/-- mesh_find_route (winc_p2p.c lines 390-412); none models the int
return value -1 (no route), some h the returned next_hop. -/
def mesh_find_route (t : MESH_ROUTING_TABLE) (dst : Nat) : Option Nat :=
  findRouteLoop dst t.nodes 255 none

/-- uint32_t wrapping subtraction a - b, for a b < 2 ^ 32. -/
def u32_sub (a b : Nat) : Nat := (2 ^ 32 + a - b) % 2 ^ 32

/-- One slot of the stale-route loop of mesh_beacon_handler (winc_p2p.c
lines 424-433): an active slot whose uint32_t age exceeds
MESH_ROUTE_TIMEOUT is demoted to inactive; every other field is kept. -/
def sweepNode (now : Nat) (n : MESH_NODE) : MESH_NODE :=
  if n.is_active = true ∧ u32_sub now n.last_update > MESH_ROUTE_TIMEOUT then
    { n with is_active := false }
  else n

/-- The stale-route sweep of mesh_beacon_handler (winc_p2p.c lines
424-433), the only routing-table mutation that function performs (the
rest of it emits a beacon, which does not touch the table). -/
def mesh_sweep (t : MESH_ROUTING_TABLE) (now : Nat) : MESH_ROUTING_TABLE :=
  { t with nodes := t.nodes.map (sweepNode now) }

/-- The four return paths of mesh_route_packet (winc_p2p.c lines
304-344): local delivery via mesh_data_handler returning true; drop with
the max-hops diagnostic returning false; drop with the no-route
diagnostic returning false; hop-count increment and forward returning
true. -/
inductive RouteOutcome where
  | deliveredLocally
  | hopLimitExceeded
  | noRoute
  | forwarded (next_hop : Nat)
  deriving Repr, DecidableEq

/-- mesh_route_packet (winc_p2p.c lines 304-344).  The function reads the
routing table and mutates only the packet header (pkt->hop_count++ on the
forwarding path, uint8_t arithmetic); the returned triple is the taken
return path, the header after the call, and the routing table after the
call (returned unchanged on every path, as the C function never writes
it).  Local delivery hands (data, pkt->payload_len) to mesh_data_handler
(winc_p2p.c lines 443-452), which only logs. -/
def mesh_route_packet (t : MESH_ROUTING_TABLE) (pkt : MESH_PKT_HDR) :
    RouteOutcome × MESH_PKT_HDR × MESH_ROUTING_TABLE :=
  if pkt.dst_node = t.local_node_id then
    (RouteOutcome.deliveredLocally, pkt, t)
  else if pkt.hop_count ≥ MESH_MAX_HOPS then
    (RouteOutcome.hopLimitExceeded, pkt, t)
  else
    match mesh_find_route t pkt.dst_node with
    | none => (RouteOutcome.noRoute, pkt, t)
    | some nh =>
      (RouteOutcome.forwarded nh,
        { pkt with hop_count := (pkt.hop_count + 1) % 256 }, t)

/-- The routing-table mutations reachable after mesh_init: beacon ingest
(mesh_update_routing_table, driven by a received MESH_MSG_BEACON) and the
expiry sweep (mesh_beacon_handler).  mesh_find_route and
mesh_route_packet never write the table. -/
inductive MeshOp where
  | upsert (b : MESH_BEACON) (now : Nat)
  | sweep (now : Nat)
  deriving Repr

/-- Apply one table mutation. -/
def applyOp (t : MESH_ROUTING_TABLE) : MeshOp → MESH_ROUTING_TABLE
  | MeshOp.upsert b now => mesh_update_routing_table t b now
  | MeshOp.sweep now => mesh_sweep t now

/-- Apply a sequence of table mutations, oldest first. -/
def applyOps (t : MESH_ROUTING_TABLE) : List MeshOp → MESH_ROUTING_TABLE
  | [] => t
  | op :: ops => applyOps (applyOp t op) ops

/-- Apply a sequence of beacon ingests (upserts), oldest first. -/
def applyUpserts (t : MESH_ROUTING_TABLE) :
    List (MESH_BEACON × Nat) → MESH_ROUTING_TABLE
  | [] => t
  | (b, now) :: rest => applyUpserts (mesh_update_routing_table t b now) rest

/-- The node_id column of the in-use slots. -/
def tableIds (t : MESH_ROUTING_TABLE) : List Nat :=
  t.nodes.map MESH_NODE.node_id

/-- A beacon as mesh_send_beacon emits it from node 2 (header hop_count
0), used by several concrete checks. -/
def sampleBeacon2 : MESH_BEACON :=
  { hdr := { msg_type := 1, src_node := 2, dst_node := 255, hop_count := 0,
             seq_num := 0, payload_len := 34 },
    node_id := 2, neighbors := [], neighbor_count := 0 }

/-- A beacon from node 2 whose header carries hop_count 1. -/
def sampleBeacon2Hop1 : MESH_BEACON :=
  { hdr := { msg_type := 1, src_node := 2, dst_node := 255, hop_count := 1,
             seq_num := 0, payload_len := 34 },
    node_id := 2, neighbors := [], neighbor_count := 0 }

/-- A beacon whose sender node_id is 1, the local identity in the
concrete checks. -/
def sampleBeaconSelf : MESH_BEACON :=
  { hdr := { msg_type := 1, src_node := 1, dst_node := 255, hop_count := 0,
             seq_num := 0, payload_len := 34 },
    node_id := 1, neighbors := [], neighbor_count := 0 }

/-- A beacon from node 9 (header hop_count 0). -/
def sampleBeacon9 : MESH_BEACON :=
  { hdr := { msg_type := 1, src_node := 9, dst_node := 255, hop_count := 0,
             seq_num := 0, payload_len := 34 },
    node_id := 9, neighbors := [], neighbor_count := 0 }

/-- A table at capacity: local node 1, direct-neighbor entries for nodes
1..8 (as produced by eight beacon ingests). -/
def fullTable8 : MESH_ROUTING_TABLE :=
  { nodes :=
      [ { node_id := 1, hop_count := 1, next_hop := 1, last_update := 10, is_active := true },
        { node_id := 2, hop_count := 1, next_hop := 2, last_update := 10, is_active := true },
        { node_id := 3, hop_count := 1, next_hop := 3, last_update := 10, is_active := true },
        { node_id := 4, hop_count := 1, next_hop := 4, last_update := 10, is_active := true },
        { node_id := 5, hop_count := 1, next_hop := 5, last_update := 10, is_active := true },
        { node_id := 6, hop_count := 1, next_hop := 6, last_update := 10, is_active := true },
        { node_id := 7, hop_count := 1, next_hop := 7, last_update := 10, is_active := true },
        { node_id := 8, hop_count := 1, next_hop := 8, last_update := 10, is_active := true } ],
    local_node_id := 0 }

/-- A table whose only entry is an active match at hop_count 255 (the
uint8_t maximum, reachable by ingesting a beacon with header hop_count
254). -/
def tableHop255 : MESH_ROUTING_TABLE :=
  { nodes :=
      [ { node_id := 2, hop_count := 255, next_hop := 7, last_update := 0, is_active := true } ],
    local_node_id := 1 }

/-- A table with one active direct route to node 9. -/
def tableRoute9 : MESH_ROUTING_TABLE :=
  { nodes :=
      [ { node_id := 9, hop_count := 1, next_hop := 9, last_update := 0, is_active := true } ],
    local_node_id := 1 }

/-- A table for the sweep checks: node 2 last refreshed at 0, node 3 at
20000. -/
def tableSweep : MESH_ROUTING_TABLE :=
  { nodes :=
      [ { node_id := 2, hop_count := 1, next_hop := 2, last_update := 0, is_active := true },
        { node_id := 3, hop_count := 1, next_hop := 3, last_update := 20000, is_active := true } ],
    local_node_id := 1 }

theorem refreshNode_node_id (b : MESH_BEACON) (now : Nat) (n : MESH_NODE) :
    (refreshNode b now n).node_id = n.node_id := rfl

theorem insertNode_node_id (b : MESH_BEACON) (now : Nat) :
    (insertNode b now).node_id = b.node_id := rfl

theorem sweepNode_node_id (now : Nat) (n : MESH_NODE) :
    (sweepNode now n).node_id = n.node_id := by
  unfold sweepNode
  split <;> rfl

theorem list_map_congr {α β : Type} (f g : α → β) :
    ∀ l : List α, (∀ a ∈ l, f a = g a) → l.map f = l.map g
  | [], _ => rfl
  | a :: l, h => by
    simp only [List.map_cons]
    rw [h a (by simp), list_map_congr f g l (fun x hx => h x (by simp [hx]))]

theorem updateFirst_eq_none_iff (nid : Nat) (f : MESH_NODE → MESH_NODE) :
    ∀ ns : List MESH_NODE, updateFirst nid f ns = none ↔ findNode ns nid = none
  | [] => by simp [updateFirst, findNode]
  | n :: ns => by
    by_cases h : n.node_id = nid
    · simp [updateFirst, findNode, h]
    · simp [updateFirst, findNode, h, updateFirst_eq_none_iff nid f ns]

theorem findNode_eq_none_iff (nid : Nat) :
    ∀ ns : List MESH_NODE, findNode ns nid = none ↔ ∀ n ∈ ns, n.node_id ≠ nid
  | [] => by simp [findNode]
  | n :: ns => by
    by_cases h : n.node_id = nid
    · simp [findNode, h]
    · simp [findNode, h, findNode_eq_none_iff nid ns]

theorem findNode_append_of_none (nid : Nat) :
    ∀ ns ms : List MESH_NODE, findNode ns nid = none →
      findNode (ns ++ ms) nid = findNode ms nid
  | [], ms, _ => rfl
  | n :: ns, ms, h => by
    simp only [findNode] at h
    by_cases hn : n.node_id = nid
    · rw [if_pos hn] at h
      exact absurd h (Option.some_ne_none n)
    · rw [if_neg hn] at h
      simp only [List.cons_append, findNode, if_neg hn]
      exact findNode_append_of_none nid ns ms h

theorem updateFirst_map_node_id (nid : Nat) (f : MESH_NODE → MESH_NODE)
    (hf : ∀ n, (f n).node_id = n.node_id) :
    ∀ ns ms : List MESH_NODE, updateFirst nid f ns = some ms →
      ms.map MESH_NODE.node_id = ns.map MESH_NODE.node_id
  | [], ms, h => by simp [updateFirst] at h
  | n :: ns, ms, h => by
    simp only [updateFirst] at h
    by_cases hn : n.node_id = nid
    · rw [if_pos hn] at h
      obtain rfl : f n :: ns = ms := by exact Option.some_injective _ h
      simp [hf n]
    · rw [if_neg hn] at h
      cases hu : updateFirst nid f ns with
      | none => rw [hu] at h; exact absurd h (by simp)
      | some ms' =>
        rw [hu] at h
        simp only [Option.map_some'] at h
        obtain rfl : n :: ms' = ms := by exact Option.some_injective _ h
        simp [updateFirst_map_node_id nid f hf ns ms' hu]

theorem updateFirst_length (nid : Nat) (f : MESH_NODE → MESH_NODE)
    (hf : ∀ n, (f n).node_id = n.node_id)
    (ns ms : List MESH_NODE) (h : updateFirst nid f ns = some ms) :
    ms.length = ns.length := by
  have hm := updateFirst_map_node_id nid f hf ns ms h
  have := congrArg List.length hm
  simpa using this

theorem findNode_updateFirst (nid : Nat) (f : MESH_NODE → MESH_NODE)
    (hf : ∀ n, (f n).node_id = n.node_id) :
    ∀ ns ms : List MESH_NODE, updateFirst nid f ns = some ms →
      findNode ms nid = (findNode ns nid).map f
  | [], ms, h => by simp [updateFirst] at h
  | n :: ns, ms, h => by
    simp only [updateFirst] at h
    by_cases hn : n.node_id = nid
    · rw [if_pos hn] at h
      obtain rfl : f n :: ns = ms := by exact Option.some_injective _ h
      simp [findNode, hf n, hn]
    · rw [if_neg hn] at h
      cases hu : updateFirst nid f ns with
      | none => rw [hu] at h; exact absurd h (by simp)
      | some ms' =>
        rw [hu] at h
        simp only [Option.map_some'] at h
        obtain rfl : n :: ms' = ms := by exact Option.some_injective _ h
        simp [findNode, hn, findNode_updateFirst nid f hf ns ms' hu]

theorem upsert_tableIds (t : MESH_ROUTING_TABLE) (b : MESH_BEACON) (now : Nat) :
    tableIds (mesh_update_routing_table t b now) = tableIds t ∨
    (tableIds (mesh_update_routing_table t b now) = tableIds t ++ [b.node_id] ∧
      lookupNode t b.node_id = none ∧ t.node_count < MESH_MAX_NODES) := by
  unfold mesh_update_routing_table
  cases hu : updateFirst b.node_id (refreshNode b now) t.nodes with
  | some ns =>
    left
    exact updateFirst_map_node_id b.node_id _ (refreshNode_node_id b now) t.nodes ns hu
  | none =>
    have hfind : findNode t.nodes b.node_id = none :=
      (updateFirst_eq_none_iff b.node_id (refreshNode b now) t.nodes).mp hu
    by_cases hlen : t.nodes.length < MESH_MAX_NODES
    · right
      refine ⟨?_, hfind, hlen⟩
      simp [tableIds, hlen, insertNode_node_id]
    · left
      simp [hlen]

theorem sweep_tableIds (t : MESH_ROUTING_TABLE) (now : Nat) :
    tableIds (mesh_sweep t now) = tableIds t := by
  unfold mesh_sweep tableIds
  simp only [List.map_map]
  exact list_map_congr _ _ t.nodes (fun n _ => sweepNode_node_id now n)

theorem sweep_node_count (t : MESH_ROUTING_TABLE) (now : Nat) :
    (mesh_sweep t now).node_count = t.node_count := by
  simp [mesh_sweep, MESH_ROUTING_TABLE.node_count]

theorem upsert_node_count_iff (t : MESH_ROUTING_TABLE) (b : MESH_BEACON) (now : Nat) :
    (mesh_update_routing_table t b now).node_count = t.node_count + 1 ↔
      (lookupNode t b.node_id = none ∧ t.node_count < MESH_MAX_NODES) := by
  unfold mesh_update_routing_table
  cases hu : updateFirst b.node_id (refreshNode b now) t.nodes with
  | some ns =>
    have hlen := updateFirst_length b.node_id _ (refreshNode_node_id b now) t.nodes ns hu
    have hfind : findNode t.nodes b.node_id ≠ none := by
      intro hc
      rw [← updateFirst_eq_none_iff b.node_id (refreshNode b now) t.nodes] at hc
      rw [hu] at hc
      exact absurd hc (by simp)
    simp only [MESH_ROUTING_TABLE.node_count, lookupNode]
    constructor
    · intro h
      omega
    · rintro ⟨h, -⟩
      exact absurd h hfind
  | none =>
    have hfind : findNode t.nodes b.node_id = none :=
      (updateFirst_eq_none_iff b.node_id (refreshNode b now) t.nodes).mp hu
    by_cases hlen : t.nodes.length < MESH_MAX_NODES
    · simp [hlen, MESH_ROUTING_TABLE.node_count, lookupNode, hfind]
    · rw [if_neg hlen]
      simp only [MESH_ROUTING_TABLE.node_count, lookupNode, hfind]
      constructor
      · intro h
        exact absurd h (by omega)
      · rintro ⟨-, h⟩
        exact absurd h hlen

theorem upsert_node_count_cases (t : MESH_ROUTING_TABLE) (b : MESH_BEACON) (now : Nat) :
    (mesh_update_routing_table t b now).node_count = t.node_count ∨
    (mesh_update_routing_table t b now).node_count = t.node_count + 1 := by
  unfold mesh_update_routing_table
  cases hu : updateFirst b.node_id (refreshNode b now) t.nodes with
  | some ns =>
    left
    have hlen := updateFirst_length b.node_id _ (refreshNode_node_id b now) t.nodes ns hu
    simp [MESH_ROUTING_TABLE.node_count, hlen]
  | none =>
    by_cases hlen : t.nodes.length < MESH_MAX_NODES
    · right
      simp [hlen, MESH_ROUTING_TABLE.node_count]
    · left
      simp [hlen]

theorem applyOp_node_count_cases (t : MESH_ROUTING_TABLE) (op : MeshOp) :
    (applyOp t op).node_count = t.node_count ∨
    (applyOp t op).node_count = t.node_count + 1 := by
  cases op with
  | upsert b now => exact upsert_node_count_cases t b now
  | sweep now => exact Or.inl (sweep_node_count t now)

theorem applyOp_node_count_le (t : MESH_ROUTING_TABLE) (op : MeshOp)
    (h : t.node_count ≤ MESH_MAX_NODES) :
    (applyOp t op).node_count ≤ MESH_MAX_NODES := by
  cases op with
  | upsert b now =>
    simp only [applyOp]
    rcases upsert_node_count_cases t b now with hc | hc
    · omega
    · have := (upsert_node_count_iff t b now).mp hc
      omega
  | sweep now =>
    simp only [applyOp]
    rw [sweep_node_count]
    exact h

theorem applyOps_node_count_le :
    ∀ (ops : List MeshOp) (t : MESH_ROUTING_TABLE),
      t.node_count ≤ MESH_MAX_NODES →
      (applyOps t ops).node_count ≤ MESH_MAX_NODES
  | [], t, h => h
  | op :: ops, t, h =>
    applyOps_node_count_le ops (applyOp t op) (applyOp_node_count_le t op h)

theorem applyOp_tableIds_ext (t : MESH_ROUTING_TABLE) (op : MeshOp) :
    tableIds (applyOp t op) = tableIds t ∨
    ∃ x, tableIds (applyOp t op) = tableIds t ++ [x] ∧
      (∀ b now, op = MeshOp.upsert b now → x = b.node_id) := by
  cases op with
  | upsert b now =>
    rcases upsert_tableIds t b now with h | ⟨h, -, -⟩
    · exact Or.inl h
    · exact Or.inr ⟨b.node_id, h, by rintro b' now' ⟨rfl, rfl⟩; rfl⟩
  | sweep now => exact Or.inl (sweep_tableIds t now)

theorem findNode_none_iff_not_mem (ns : List MESH_NODE) (nid : Nat) :
    findNode ns nid = none ↔ nid ∉ ns.map MESH_NODE.node_id := by
  rw [findNode_eq_none_iff]
  simp only [List.mem_map]
  constructor
  · rintro h ⟨n, hn, rfl⟩
    exact h n hn rfl
  · intro h n hn he
    exact h ⟨n, hn, he⟩

theorem upsert_nodup (t : MESH_ROUTING_TABLE) (b : MESH_BEACON) (now : Nat)
    (h : (tableIds t).Nodup) :
    (tableIds (mesh_update_routing_table t b now)).Nodup := by
  rcases upsert_tableIds t b now with he | ⟨he, hfind, -⟩
  · rw [he]
    exact h
  · rw [he]
    have hmem : b.node_id ∉ tableIds t :=
      (findNode_none_iff_not_mem t.nodes b.node_id).mp hfind
    simp [List.nodup_append, h, hmem]

theorem applyUpserts_nodup :
    ∀ (bs : List (MESH_BEACON × Nat)) (t : MESH_ROUTING_TABLE),
      (tableIds t).Nodup → (tableIds (applyUpserts t bs)).Nodup
  | [], _, h => h
  | (b, now) :: rest, t, h =>
    applyUpserts_nodup rest (mesh_update_routing_table t b now)
      (upsert_nodup t b now h)

theorem applyOp_not_mem (t : MESH_ROUTING_TABLE) (op : MeshOp) (nid : Nat)
    (h : nid ∉ tableIds t)
    (hop : ∀ b now, op = MeshOp.upsert b now → b.node_id ≠ nid) :
    nid ∉ tableIds (applyOp t op) := by
  cases op with
  | upsert b now =>
    rcases upsert_tableIds t b now with he | ⟨he, -, -⟩
    · simpa [applyOp, he] using h
    · simp only [applyOp, he, List.mem_append, List.mem_singleton]
      rintro (hm | rfl)
      · exact h hm
      · exact hop b now rfl rfl
  | sweep now => simpa [applyOp, sweep_tableIds] using h

theorem applyOps_not_mem :
    ∀ (ops : List MeshOp) (t : MESH_ROUTING_TABLE) (nid : Nat),
      nid ∉ tableIds t →
      (∀ b now, MeshOp.upsert b now ∈ ops → b.node_id ≠ nid) →
      nid ∉ tableIds (applyOps t ops)
  | [], _, _, h, _ => h
  | op :: ops, t, nid, h, hops =>
    applyOps_not_mem ops (applyOp t op) nid
      (applyOp_not_mem t op nid h
        (fun b now he => hops b now (by rw [he]; exact List.mem_cons_self _ _)))
      (fun b now hm => hops b now (List.mem_cons_of_mem _ hm))

theorem tableIds_get?_extension (ns ms : List MESH_NODE)
    (hext : ms.map MESH_NODE.node_id = ns.map MESH_NODE.node_id ∨
      ∃ x, ms.map MESH_NODE.node_id = ns.map MESH_NODE.node_id ++ [x])
    (i : Nat) (n : MESH_NODE) (hi : ns.get? i = some n) :
    ∃ m, ms.get? i = some m ∧ m.node_id = n.node_id := by
  have hilen : i < ns.length := by
    by_contra hc
    rw [List.get?_eq_none.mpr (by omega)] at hi
    exact absurd hi (by simp)
  have hids : (ms.map MESH_NODE.node_id).get? i = some n.node_id := by
    rcases hext with he | ⟨x, he⟩
    · rw [he, List.get?_map, hi]
      rfl
    · rw [he, List.get?_append (by simpa using hilen), List.get?_map, hi]
      rfl
  rw [List.get?_map] at hids
  cases hm : ms.get? i with
  | none => rw [hm] at hids; exact absurd hids (by simp)
  | some m =>
    rw [hm] at hids
    refine ⟨m, rfl, ?_⟩
    simpa using hids

theorem u32_sub_eq (a b : Nat) (hb : b ≤ a) (ha : a < 2 ^ 32) :
    u32_sub a b = a - b := by
  unfold u32_sub
  have hp : (2 : Nat) ^ 32 = 4294967296 := by norm_num
  rw [hp] at *
  omega

theorem findRouteLoop_eq_none_iff (dst : Nat) :
    ∀ (ns : List MESH_NODE) (mh : Nat) (best : Option Nat),
      findRouteLoop dst ns mh best = none ↔
        (best = none ∧ ∀ n ∈ ns,
          ¬(n.node_id = dst ∧ n.is_active = true ∧ n.hop_count < mh))
  | [], mh, best => by simp [findRouteLoop]
  | n :: ns, mh, best => by
    by_cases hc : n.node_id = dst ∧ n.is_active = true ∧ n.hop_count < mh
    · have hstep : findRouteLoop dst (n :: ns) mh best =
          findRouteLoop dst ns n.hop_count (some n.next_hop) := by
        simp only [findRouteLoop]
        rw [if_pos hc]
      rw [hstep, findRouteLoop_eq_none_iff dst ns n.hop_count (some n.next_hop)]
      constructor
      · rintro ⟨h1, -⟩
        exact absurd h1 (by simp)
      · rintro ⟨-, hall⟩
        exact absurd hc (hall n (List.mem_cons_self n ns))
    · have hstep : findRouteLoop dst (n :: ns) mh best =
          findRouteLoop dst ns mh best := by
        simp only [findRouteLoop]
        rw [if_neg hc]
      rw [hstep, findRouteLoop_eq_none_iff dst ns mh best]
      constructor
      · rintro ⟨hb, hall⟩
        refine ⟨hb, fun m hm => ?_⟩
        rcases List.mem_cons.mp hm with rfl | hm2
        · exact hc
        · exact hall m hm2
      · rintro ⟨hb, hall⟩
        exact ⟨hb, fun m hm => hall m (List.mem_cons_of_mem n hm)⟩

theorem findRouteLoop_some_spec (dst : Nat) :
    ∀ (ns : List MESH_NODE) (mh : Nat) (best : Option Nat) (h : Nat),
      findRouteLoop dst ns mh best = some h →
      (best = some h ∧ ∀ m ∈ ns, (m.node_id = dst ∧ m.is_active = true) →
          ¬(m.hop_count < mh)) ∨
      (∃ n, n ∈ ns ∧ (n.node_id = dst ∧ n.is_active = true) ∧
        n.hop_count < mh ∧ n.next_hop = h ∧
        ∀ m ∈ ns, (m.node_id = dst ∧ m.is_active = true) →
          (n.hop_count ≤ m.hop_count ∨ ¬(m.hop_count < mh)))
  | [], _, _, _ => fun hl => Or.inl ⟨hl, by simp⟩
  | n :: ns, mh, best, h => fun hl => by
    by_cases hc : n.node_id = dst ∧ n.is_active = true ∧ n.hop_count < mh
    · have hstep : findRouteLoop dst (n :: ns) mh best =
          findRouteLoop dst ns n.hop_count (some n.next_hop) := by
        simp only [findRouteLoop]
        rw [if_pos hc]
      rw [hstep] at hl
      rcases findRouteLoop_some_spec dst ns n.hop_count (some n.next_hop) h hl with
        ⟨hb, hall⟩ | ⟨n', hn', hm', hlt', hnh', hmin'⟩
      · right
        refine ⟨n, List.mem_cons_self n ns, ⟨hc.1, hc.2.1⟩, hc.2.2,
          Option.some_injective _ hb, fun m hm hmatch => ?_⟩
        rcases List.mem_cons.mp hm with rfl | hm2
        · exact Or.inl (Nat.le_refl _)
        · have := hall m hm2 hmatch
          exact Or.inl (by omega)
      · right
        refine ⟨n', List.mem_cons_of_mem n hn', hm',
          Nat.lt_trans hlt' hc.2.2, hnh', fun m hm hmatch => ?_⟩
        rcases List.mem_cons.mp hm with rfl | hm2
        · exact Or.inl (Nat.le_of_lt hlt')
        · rcases hmin' m hm2 hmatch with hle | hnlt
          · exact Or.inl hle
          · exact Or.inl (by omega)
    · have hstep : findRouteLoop dst (n :: ns) mh best =
          findRouteLoop dst ns mh best := by
        simp only [findRouteLoop]
        rw [if_neg hc]
      rw [hstep] at hl
      rcases findRouteLoop_some_spec dst ns mh best h hl with
        ⟨hb, hall⟩ | ⟨n', hn', hm', hlt', hnh', hmin'⟩
      · left
        refine ⟨hb, fun m hm hmatch => ?_⟩
        rcases List.mem_cons.mp hm with rfl | hm2
        · intro hlt
          exact hc ⟨hmatch.1, hmatch.2, hlt⟩
        · exact hall m hm2 hmatch
      · right
        refine ⟨n', List.mem_cons_of_mem n hn', hm', hlt', hnh',
          fun m hm hmatch => ?_⟩
        rcases List.mem_cons.mp hm with rfl | hm2
        · exact Or.inr (fun hlt => hc ⟨hmatch.1, hmatch.2, hlt⟩)
        · exact hmin' m hm2 hmatch

theorem applyOp_local_node_id (t : MESH_ROUTING_TABLE) (op : MeshOp) :
    (applyOp t op).local_node_id = t.local_node_id := by
  cases op with
  | upsert b now =>
    show (mesh_update_routing_table t b now).local_node_id = t.local_node_id
    unfold mesh_update_routing_table
    cases updateFirst b.node_id (refreshNode b now) t.nodes with
    | some ns => rfl
    | none =>
      by_cases hlen : t.nodes.length < MESH_MAX_NODES
      · rw [if_pos hlen]
      · rw [if_neg hlen]
  | sweep now => rfl

theorem applyOps_local_node_id :
    ∀ (ops : List MeshOp) (t : MESH_ROUTING_TABLE),
      (applyOps t ops).local_node_id = t.local_node_id
  | [], _ => rfl
  | op :: ops, t => by
    rw [show applyOps t (op :: ops) = applyOps (applyOp t op) ops from rfl,
      applyOps_local_node_id ops (applyOp t op), applyOp_local_node_id]

/-- Claim C1, counterexample: local node 1 ingests a beacon from direct
peer 2 whose header carries hop_count 1; the entry produced for node 2
has hop_count 2 (not 1) and next_hop 0 (not 2), because
mesh_update_routing_table stores beacon->hdr.hop_count + 1 and only sets
next_hop when that value is 1. -/
theorem c1_counterexample :
    lookupNode (mesh_update_routing_table (mesh_init 1) sampleBeacon2Hop1 100) 2 =
      some { node_id := 2, hop_count := 2, next_hop := 0, last_update := 100,
             is_active := true } ∧
    ¬((2 : Nat) = 1 ∧ (0 : Nat) = 2) := ⟨by decide, by decide⟩

theorem refreshNode_hop_count (b : MESH_BEACON) (now : Nat) (n : MESH_NODE) :
    (refreshNode b now n).hop_count = (b.hdr.hop_count + 1) % 256 := rfl

theorem refreshNode_next_hop_of_one (b : MESH_BEACON) (now : Nat)
    (n : MESH_NODE) (h1 : (b.hdr.hop_count + 1) % 256 = 1) :
    (refreshNode b now n).next_hop = b.node_id := by
  unfold refreshNode
  simp [h1]

theorem refreshNode_direct_iff (b : MESH_BEACON) (now : Nat) (n : MESH_NODE) :
    ((refreshNode b now n).hop_count = 1 ∧
      (refreshNode b now n).next_hop = b.node_id) ↔
    (b.hdr.hop_count + 1) % 256 = 1 := by
  constructor
  · rintro ⟨h1, -⟩
    rw [← refreshNode_hop_count b now n]
    exact h1
  · intro h1
    exact ⟨by rw [refreshNode_hop_count b now n, h1],
      refreshNode_next_hop_of_one b now n h1⟩

/-- Claim C1 (amended): every beacon ingest from a direct peer with
sender node N that produces or refreshes an entry (sender already
present, or table below capacity) leaves the entry for N with
hop_count = (beacon.hdr.hop_count + 1) mod 256, is_active = true and
last_update = ingest time; and the entry has hop_count 1 and
next_hop = N exactly when that stored value is 1 — for uint8 header
values, exactly when the header carries hop_count 0, the value every
beacon sender writes. -/
theorem c1_direct_beacon_amended (t : MESH_ROUTING_TABLE) (b : MESH_BEACON)
    (now : Nat)
    (hroom : lookupNode t b.node_id ≠ none ∨ t.node_count < MESH_MAX_NODES) :
    ∃ n, lookupNode (mesh_update_routing_table t b now) b.node_id = some n ∧
      n.hop_count = (b.hdr.hop_count + 1) % 256 ∧
      n.is_active = true ∧ n.last_update = now ∧
      ((n.hop_count = 1 ∧ n.next_hop = b.node_id) ↔
        (b.hdr.hop_count + 1) % 256 = 1) ∧
      (b.hdr.hop_count < 256 →
        ((n.hop_count = 1 ∧ n.next_hop = b.node_id) ↔ b.hdr.hop_count = 0)) := by
  have harith : b.hdr.hop_count < 256 →
      ((b.hdr.hop_count + 1) % 256 = 1 ↔ b.hdr.hop_count = 0) := by
    intro hlt
    omega
  unfold mesh_update_routing_table
  cases hu : updateFirst b.node_id (refreshNode b now) t.nodes with
  | some ns =>
    have hfind := findNode_updateFirst b.node_id _ (refreshNode_node_id b now)
      t.nodes ns hu
    cases hf : findNode t.nodes b.node_id with
    | none =>
      rw [← updateFirst_eq_none_iff b.node_id (refreshNode b now) t.nodes] at hf
      rw [hu] at hf
      exact absurd hf (by simp)
    | some n0 =>
      refine ⟨refreshNode b now n0, ?_, refreshNode_hop_count b now n0, rfl, rfl,
        refreshNode_direct_iff b now n0, ?_⟩
      · show findNode ns b.node_id = _
        rw [hfind, hf]
        rfl
      · intro hlt
        rw [refreshNode_direct_iff b now n0]
        exact harith hlt
  | none =>
    have hfind : findNode t.nodes b.node_id = none :=
      (updateFirst_eq_none_iff b.node_id (refreshNode b now) t.nodes).mp hu
    have hlen : t.nodes.length < MESH_MAX_NODES := by
      rcases hroom with hr | hr
      · exact absurd hfind hr
      · exact hr
    rw [if_pos hlen]
    refine ⟨insertNode b now, ?_, refreshNode_hop_count b now _, rfl, rfl,
      refreshNode_direct_iff b now _, ?_⟩
    · show findNode (t.nodes ++ [insertNode b now]) b.node_id = _
      rw [findNode_append_of_none b.node_id t.nodes _ hfind]
      simp [findNode, insertNode_node_id]
    · intro hlt
      rw [show insertNode b now = refreshNode b now
          { node_id := b.node_id, hop_count := 0, next_hop := 0,
            last_update := 0, is_active := false } from rfl,
        refreshNode_direct_iff b now _]
      exact harith hlt

/-- Witness for c1_direct_beacon_amended: local node 1, beacon from node
2 with header hop_count 0, ingested at time 77 into the fresh table; the
entry gets hop_count 1, next_hop 2, and both forms of the exactly-when
biconditional hold. -/
theorem c1_direct_beacon_amended_witness :
    (mesh_init 1).node_count < MESH_MAX_NODES ∧
    ∃ n, lookupNode (mesh_update_routing_table (mesh_init 1) sampleBeacon2 77)
        sampleBeacon2.node_id = some n ∧
      n.hop_count = (sampleBeacon2.hdr.hop_count + 1) % 256 ∧
      n.is_active = true ∧ n.last_update = 77 ∧
      ((n.hop_count = 1 ∧ n.next_hop = sampleBeacon2.node_id) ↔
        (sampleBeacon2.hdr.hop_count + 1) % 256 = 1) ∧
      (sampleBeacon2.hdr.hop_count < 256 →
        ((n.hop_count = 1 ∧ n.next_hop = sampleBeacon2.node_id) ↔
          sampleBeacon2.hdr.hop_count = 0)) :=
  ⟨by decide,
    c1_direct_beacon_amended (mesh_init 1) sampleBeacon2 77 (Or.inr (by decide))⟩

/-- Claim C2: with the table at capacity (MESH_MAX_NODES = 8 entries) and
no entry for the beacon sender, the beacon ingest leaves the routing
table completely unchanged: still 8 entries, the new node absent, every
existing entry untouched.  (The C function is void: the refusal is not
reported through any error value, it is exactly this absence of any
effect.) -/
theorem c2_table_full_refused (t : MESH_ROUTING_TABLE) (b : MESH_BEACON)
    (now : Nat) (hfull : t.node_count = MESH_MAX_NODES)
    (habs : lookupNode t b.node_id = none) :
    mesh_update_routing_table t b now = t := by
  unfold mesh_update_routing_table
  cases hu : updateFirst b.node_id (refreshNode b now) t.nodes with
  | some ns =>
    have : updateFirst b.node_id (refreshNode b now) t.nodes = none :=
      (updateFirst_eq_none_iff b.node_id (refreshNode b now) t.nodes).mpr habs
    rw [hu] at this
    exact absurd this (by simp)
  | none =>
    have hlen : ¬ t.nodes.length < MESH_MAX_NODES := by
      have he : t.nodes.length = MESH_MAX_NODES := hfull
      omega
    rw [if_neg hlen]

/-- Witness for c2_table_full_refused: eight active entries for nodes
1..8, beacon from node 9 at time 20. -/
theorem c2_table_full_refused_witness :
    fullTable8.node_count = MESH_MAX_NODES ∧
    lookupNode fullTable8 sampleBeacon9.node_id = none ∧
    mesh_update_routing_table fullTable8 sampleBeacon9 20 = fullTable8 :=
  ⟨rfl, by decide, c2_table_full_refused fullTable8 sampleBeacon9 20 rfl (by decide)⟩

/-- Claim C3, counterexample: after mesh_init with local node id 1,
ingesting a beacon whose sender node_id is 1 (the local identity) does
create an entry for node 1 — mesh_update_routing_table never compares
beacon->node_id with local_node_id. -/
theorem c3_counterexample :
    (mesh_init 1).local_node_id = 1 ∧
    lookupNode (mesh_update_routing_table (mesh_init 1) sampleBeaconSelf 0) 1 =
      some { node_id := 1, hop_count := 1, next_hop := 1, last_update := 0,
             is_active := true } := ⟨rfl, by decide⟩

/-- Claim C3 (amended): after mesh initialization, local_node_id never
appears as an entry provided no ingested beacon carries the local
identity as its sender; the code itself never filters such
self-beacons, so the invariant holds only under that assumption on the
ingested traffic. -/
theorem c3_local_id_amended (ops : List MeshOp) (nid : Nat)
    (h : ∀ b now, MeshOp.upsert b now ∈ ops → b.node_id ≠ nid) :
    (applyOps (mesh_init nid) ops).local_node_id = nid ∧
    ∀ n ∈ (applyOps (mesh_init nid) ops).nodes, n.node_id ≠ nid := by
  refine ⟨applyOps_local_node_id ops (mesh_init nid), ?_⟩
  have hmem : nid ∉ tableIds (applyOps (mesh_init nid) ops) :=
    applyOps_not_mem ops (mesh_init nid) nid (by simp [tableIds, mesh_init]) h
  intro n hn he
  exact hmem (List.mem_map.mpr ⟨n, hn, he⟩)

/-- Witness for c3_local_id_amended: local node 1 ingests one beacon from
node 2; the resulting sole entry carries node_id 2, not 1. -/
theorem c3_local_id_amended_witness :
    ({ node_id := 2, hop_count := 1, next_hop := 2, last_update := 0,
       is_active := true } : MESH_NODE).node_id ≠ 1 :=
  (c3_local_id_amended [MeshOp.upsert sampleBeacon2 0] 1
    (by
      intro b now hm
      simp only [List.mem_singleton] at hm
      cases hm
      decide)).2
    { node_id := 2, hop_count := 1, next_hop := 2, last_update := 0,
      is_active := true }
    (by decide)

/-- Claim C4: an inbound data packet with hop_count at least MESH_MAX_HOPS
(4) whose destination is not the local node is dropped on the
hop-limit-exceeded return path of mesh_route_packet, never forwarded; the
packet header and the routing table are returned unchanged. -/
theorem c4_hop_limit_drop (t : MESH_ROUTING_TABLE) (pkt : MESH_PKT_HDR)
    (hdst : pkt.dst_node ≠ t.local_node_id)
    (hhop : pkt.hop_count ≥ MESH_MAX_HOPS) :
    mesh_route_packet t pkt = (RouteOutcome.hopLimitExceeded, pkt, t) := by
  unfold mesh_route_packet
  rw [if_neg hdst, if_pos hhop]

/-- Witness for c4_hop_limit_drop: local node 1, packet for node 9 with
hop_count 4. -/
theorem c4_hop_limit_drop_witness :
    ({ msg_type := 2, src_node := 5, dst_node := 9, hop_count := 4,
       seq_num := 7, payload_len := 3 } : MESH_PKT_HDR).dst_node ≠
      (mesh_init 1).local_node_id ∧
    mesh_route_packet (mesh_init 1)
        { msg_type := 2, src_node := 5, dst_node := 9, hop_count := 4,
          seq_num := 7, payload_len := 3 } =
      (RouteOutcome.hopLimitExceeded,
        { msg_type := 2, src_node := 5, dst_node := 9, hop_count := 4,
          seq_num := 7, payload_len := 3 }, mesh_init 1) :=
  ⟨by decide,
    c4_hop_limit_drop (mesh_init 1)
      { msg_type := 2, src_node := 5, dst_node := 9, hop_count := 4,
        seq_num := 7, payload_len := 3 } (by decide) (by decide)⟩

/-- Claim C5: an inbound data packet whose destination equals
local_node_id takes the local-delivery return path of mesh_route_packet
(the branch that hands the payload to mesh_data_handler and returns
true), for every hop_count value, including values at or above
MESH_MAX_HOPS. -/
theorem c5_local_delivery (t : MESH_ROUTING_TABLE) (pkt : MESH_PKT_HDR)
    (hdst : pkt.dst_node = t.local_node_id) :
    mesh_route_packet t pkt = (RouteOutcome.deliveredLocally, pkt, t) := by
  unfold mesh_route_packet
  rw [if_pos hdst]

/-- Witness for c5_local_delivery: local node 1, packet for node 1 with
hop_count 10, above the hop ceiling. -/
theorem c5_local_delivery_witness :
    ({ msg_type := 2, src_node := 5, dst_node := 1, hop_count := 10,
       seq_num := 7, payload_len := 3 } : MESH_PKT_HDR).dst_node =
      (mesh_init 1).local_node_id ∧
    mesh_route_packet (mesh_init 1)
        { msg_type := 2, src_node := 5, dst_node := 1, hop_count := 10,
          seq_num := 7, payload_len := 3 } =
      (RouteOutcome.deliveredLocally,
        { msg_type := 2, src_node := 5, dst_node := 1, hop_count := 10,
          seq_num := 7, payload_len := 3 }, mesh_init 1) :=
  ⟨by decide,
    c5_local_delivery (mesh_init 1)
      { msg_type := 2, src_node := 5, dst_node := 1, hop_count := 10,
        seq_num := 7, payload_len := 3 } (by decide)⟩

/-- Claim C6: the expiry sweep deactivates exactly the active entries
older than MESH_ROUTE_TIMEOUT (30000 ms), removes no entry, and keeps
every other field of every entry; stated for monotone uint32 millisecond
clocks (every stored last_update at or before now, now below 2^32), under
which the uint32 age computed by the C code is the plain difference
now - last_update. -/
theorem c6_sweep_exact (t : MESH_ROUTING_TABLE) (now : Nat)
    (hnow : now < 2 ^ 32)
    (hlu : ∀ n ∈ t.nodes, n.last_update ≤ now) :
    mesh_sweep t now =
      { t with nodes := t.nodes.map (fun n =>
          if n.is_active = true ∧ now - n.last_update > MESH_ROUTE_TIMEOUT then
            { n with is_active := false }
          else n) } := by
  unfold mesh_sweep
  have hmap : t.nodes.map (sweepNode now) = t.nodes.map (fun n =>
      if n.is_active = true ∧ now - n.last_update > MESH_ROUTE_TIMEOUT then
        { n with is_active := false }
      else n) := by
    apply list_map_congr
    intro n hn
    unfold sweepNode
    rw [u32_sub_eq now n.last_update (hlu n hn) hnow]
  rw [hmap]

/-- Witness for c6_sweep_exact: at time 40000 the entry refreshed at 0
(age 40000 > 30000) is deactivated, the entry refreshed at 20000 (age
20000) stays active; both entries remain stored. -/
theorem c6_sweep_exact_witness :
    (40000 : Nat) < 2 ^ 32 ∧
    (∀ n ∈ tableSweep.nodes, n.last_update ≤ 40000) ∧
    mesh_sweep tableSweep 40000 =
      { tableSweep with nodes := tableSweep.nodes.map (fun n =>
          if n.is_active = true ∧ 40000 - n.last_update > MESH_ROUTE_TIMEOUT then
            { n with is_active := false }
          else n) } :=
  ⟨by norm_num, by decide,
    c6_sweep_exact tableSweep 40000 (by norm_num) (by decide)⟩

/-- Claim C7: forwarding an inbound data packet that is not local, below
the hop ceiling, and routable increments the header hop_count by exactly
one and leaves src_node, dst_node and seq_num unchanged; the table is
returned unchanged. -/
theorem c7_forward_increments_hop (t : MESH_ROUTING_TABLE)
    (pkt : MESH_PKT_HDR) (nh : Nat)
    (hdst : pkt.dst_node ≠ t.local_node_id)
    (hhop : pkt.hop_count < MESH_MAX_HOPS)
    (hroute : mesh_find_route t pkt.dst_node = some nh) :
    mesh_route_packet t pkt =
      (RouteOutcome.forwarded nh,
        { pkt with hop_count := pkt.hop_count + 1 }, t) ∧
    ({ pkt with hop_count := pkt.hop_count + 1 } : MESH_PKT_HDR).src_node =
      pkt.src_node ∧
    ({ pkt with hop_count := pkt.hop_count + 1 } : MESH_PKT_HDR).dst_node =
      pkt.dst_node ∧
    ({ pkt with hop_count := pkt.hop_count + 1 } : MESH_PKT_HDR).seq_num =
      pkt.seq_num := by
  have hmax : MESH_MAX_HOPS = 4 := rfl
  have hnotge : ¬ pkt.hop_count ≥ MESH_MAX_HOPS := by omega
  have hmod : (pkt.hop_count + 1) % 256 = pkt.hop_count + 1 :=
    Nat.mod_eq_of_lt (by omega)
  refine ⟨?_, rfl, rfl, rfl⟩
  unfold mesh_route_packet
  rw [if_neg hdst, if_neg hnotge, hroute]
  rw [show (match some nh with
      | none => (RouteOutcome.noRoute, pkt, t)
      | some nh =>
        (RouteOutcome.forwarded nh,
          { pkt with hop_count := (pkt.hop_count + 1) % 256 }, t)) =
      (RouteOutcome.forwarded nh,
        { pkt with hop_count := (pkt.hop_count + 1) % 256 }, t) from rfl]
  rw [hmod]

/-- Witness for c7_forward_increments_hop: local node 1, active direct
route to node 9, packet for node 9 with hop_count 2 becomes hop_count 3
toward next hop 9. -/
theorem c7_forward_increments_hop_witness :
    mesh_find_route tableRoute9 9 = some 9 ∧
    mesh_route_packet tableRoute9
        { msg_type := 2, src_node := 5, dst_node := 9, hop_count := 2,
          seq_num := 7, payload_len := 3 } =
      (RouteOutcome.forwarded 9,
        { msg_type := 2, src_node := 5, dst_node := 9, hop_count := 3,
          seq_num := 7, payload_len := 3 }, tableRoute9) :=
  ⟨by decide,
    (c7_forward_increments_hop tableRoute9
      { msg_type := 2, src_node := 5, dst_node := 9, hop_count := 2,
        seq_num := 7, payload_len := 3 } 9 (by decide) (by decide) (by decide)).1⟩

/-- Claim C8: for every sequence of beacon ingests (upserts) starting
from a freshly initialized routing table, the table never holds two
entries — in particular two active entries — with the same node_id. -/
theorem c8_no_duplicate_active (bs : List (MESH_BEACON × Nat)) (nid : Nat)
    (i j : Nat) (ni nj : MESH_NODE) (hij : i ≠ j)
    (hi : (applyUpserts (mesh_init nid) bs).nodes.get? i = some ni)
    (hj : (applyUpserts (mesh_init nid) bs).nodes.get? j = some nj)
    (hai : ni.is_active = true) (haj : nj.is_active = true) :
    ni.node_id ≠ nj.node_id := by
  have hnd : (tableIds (applyUpserts (mesh_init nid) bs)).Nodup :=
    applyUpserts_nodup bs (mesh_init nid) (by simp [tableIds, mesh_init])
  intro he
  have hnd' : ((applyUpserts (mesh_init nid) bs).nodes.map
      MESH_NODE.node_id).Nodup := hnd
  have hilen : i < (applyUpserts (mesh_init nid) bs).nodes.length := by
    by_contra hc
    rw [List.get?_eq_none.mpr (by omega)] at hi
    exact absurd hi (by simp)
  have h1 : ((applyUpserts (mesh_init nid) bs).nodes.map
      MESH_NODE.node_id).get? i = some ni.node_id := by
    rw [List.get?_map, hi]
    rfl
  have h2 : ((applyUpserts (mesh_init nid) bs).nodes.map
      MESH_NODE.node_id).get? j = some nj.node_id := by
    rw [List.get?_map, hj]
    rfl
  have hij2 : i = j := by
    apply List.get?_inj ?_ hnd'
    · rw [h1, h2, he]
    · simpa using hilen
  exact hij hij2

/-- Witness for c8_no_duplicate_active: local node 1 ingests beacons from
nodes 2 and 9; the two stored entries are both active and indeed carry
different node ids. -/
theorem c8_no_duplicate_active_witness :
    ({ node_id := 2, hop_count := 1, next_hop := 2, last_update := 0,
       is_active := true } : MESH_NODE).node_id ≠
      ({ node_id := 9, hop_count := 1, next_hop := 9, last_update := 0,
         is_active := true } : MESH_NODE).node_id :=
  c8_no_duplicate_active [(sampleBeacon2, 0), (sampleBeacon9, 0)] 1 0 1
    { node_id := 2, hop_count := 1, next_hop := 2, last_update := 0,
      is_active := true }
    { node_id := 9, hop_count := 1, next_hop := 9, last_update := 0,
      is_active := true }
    (by decide) (by decide) (by decide) rfl rfl

/-- Claim C9, counterexample: a table whose single entry is an active
match for destination 2 at hop_count 255 (the uint8_t maximum, reachable
by ingesting a beacon with header hop_count 254) makes mesh_find_route
return no route, although an active matching entry exists — the loop
starts min_hops at 255 and only accepts strictly smaller hop counts. -/
theorem c9_counterexample :
    mesh_find_route tableHop255 2 = none ∧
    tableHop255.nodes.get? 0 =
      some { node_id := 2, hop_count := 255, next_hop := 7, last_update := 0,
             is_active := true } := ⟨by decide, by decide⟩

/-- Claim C9 (amended): mesh_find_route returns no route exactly when no
active entry matches the destination with hop_count below 255; when it
returns a next hop, that next hop belongs to an active matching entry
with hop_count below 255 whose hop_count is minimal among all active
matching entries with hop_count below 255.  The query is a pure function
of the table (the C loop performs no writes). -/
theorem c9_find_route_amended (t : MESH_ROUTING_TABLE) (dst : Nat) :
    (mesh_find_route t dst = none ↔
      ∀ n ∈ t.nodes,
        ¬(n.node_id = dst ∧ n.is_active = true ∧ n.hop_count < 255)) ∧
    (∀ h, mesh_find_route t dst = some h →
      ∃ n, n ∈ t.nodes ∧ n.node_id = dst ∧ n.is_active = true ∧
        n.hop_count < 255 ∧ n.next_hop = h ∧
        ∀ m ∈ t.nodes, m.node_id = dst ∧ m.is_active = true →
          (n.hop_count ≤ m.hop_count ∨ ¬(m.hop_count < 255))) := by
  constructor
  · rw [show mesh_find_route t dst = findRouteLoop dst t.nodes 255 none from rfl,
      findRouteLoop_eq_none_iff dst t.nodes 255 none]
    simp
  · intro h hl
    rcases findRouteLoop_some_spec dst t.nodes 255 none h hl with
      ⟨hb, -⟩ | ⟨n, hn, hm, hlt, hnh, hmin⟩
    · exact absurd hb (by simp)
    · exact ⟨n, hn, hm.1, hm.2, hlt, hnh, hmin⟩

/-- Witness for c9_find_route_amended: on the table with one active
direct route to node 9 the query returns next hop 9, and the returned
hop belongs to a minimal active matching entry. -/
theorem c9_find_route_amended_witness :
    mesh_find_route tableRoute9 9 = some 9 ∧
    (∃ n, n ∈ tableRoute9.nodes ∧ n.node_id = 9 ∧ n.is_active = true ∧
      n.hop_count < 255 ∧ n.next_hop = 9 ∧
      ∀ m ∈ tableRoute9.nodes, m.node_id = 9 ∧ m.is_active = true →
        (n.hop_count ≤ m.hop_count ∨ ¬(m.hop_count < 255))) :=
  ⟨by decide, (c9_find_route_amended tableRoute9 9).2 9 (by decide)⟩

/-- Claim C10: after mesh initialization node_count starts at 0 and never
exceeds MESH_MAX_NODES (8) under any sequence of table operations; no
operation decreases it; every operation changes it by at most one; the
expiry sweep never changes it; a beacon ingest increments it (by exactly
one) precisely when the sender has no entry and the table is below
capacity; and every stored entry survives every operation in place with
its node_id intact. -/
theorem c10_node_count_invariants :
    (∀ (nid : Nat) (ops : List MeshOp),
      (applyOps (mesh_init nid) ops).node_count ≤ MESH_MAX_NODES) ∧
    (∀ (t : MESH_ROUTING_TABLE) (op : MeshOp),
      t.node_count ≤ (applyOp t op).node_count) ∧
    (∀ (t : MESH_ROUTING_TABLE) (op : MeshOp),
      (applyOp t op).node_count ≤ t.node_count + 1) ∧
    (∀ (t : MESH_ROUTING_TABLE) (now : Nat),
      (mesh_sweep t now).node_count = t.node_count) ∧
    (∀ (t : MESH_ROUTING_TABLE) (b : MESH_BEACON) (now : Nat),
      ((mesh_update_routing_table t b now).node_count = t.node_count + 1 ↔
        (lookupNode t b.node_id = none ∧ t.node_count < MESH_MAX_NODES))) ∧
    (∀ (t : MESH_ROUTING_TABLE) (op : MeshOp) (i : Nat) (n : MESH_NODE),
      t.nodes.get? i = some n →
      ∃ m, (applyOp t op).nodes.get? i = some m ∧ m.node_id = n.node_id) := by
  refine ⟨?_, ?_, ?_, sweep_node_count, upsert_node_count_iff, ?_⟩
  · intro nid ops
    exact applyOps_node_count_le ops (mesh_init nid) (Nat.zero_le _)
  · intro t op
    rcases applyOp_node_count_cases t op with hc | hc <;> omega
  · intro t op
    rcases applyOp_node_count_cases t op with hc | hc <;> omega
  · intro t op i n hi
    apply tableIds_get?_extension t.nodes (applyOp t op).nodes ?_ i n hi
    rcases applyOp_tableIds_ext t op with he | ⟨x, he, -⟩
    · exact Or.inl he
    · exact Or.inr ⟨x, he⟩

/-- Witness for c10_node_count_invariants: a single ingest from the fresh
table stays within capacity, increments node_count by exactly one (new
sender, below capacity), and a sweep leaves the stored entry for node 9
in place. -/
theorem c10_node_count_invariants_witness :
    (applyOps (mesh_init 1) [MeshOp.upsert sampleBeacon2 0]).node_count ≤
      MESH_MAX_NODES ∧
    ((mesh_update_routing_table (mesh_init 1) sampleBeacon2 0).node_count =
        (mesh_init 1).node_count + 1 ↔
      (lookupNode (mesh_init 1) sampleBeacon2.node_id = none ∧
        (mesh_init 1).node_count < MESH_MAX_NODES)) ∧
    (∃ m, (applyOp tableRoute9 (MeshOp.sweep 99)).nodes.get? 0 = some m ∧
      m.node_id = 9) :=
  ⟨c10_node_count_invariants.1 1 [MeshOp.upsert sampleBeacon2 0],
    c10_node_count_invariants.2.2.2.2.1 (mesh_init 1) sampleBeacon2 0,
    c10_node_count_invariants.2.2.2.2.2 tableRoute9 (MeshOp.sweep 99) 0
      { node_id := 9, hop_count := 1, next_hop := 9, last_update := 0,
        is_active := true }
      (by decide)⟩
